import Mathlib

/-
Shallow embedding of the OHLCV fetch/normalize core of the repository
(src/data.py), together with the theorems settling the spec claims.

Modelling conventions:
* Python numbers (ints and finite floats, and strings that pandas
  `to_numeric` parses to a finite number) are modelled as rationals `ℚ`;
  IEEE infinities and values outside datetime range are outside the model.
* A raw OHLCV field is `RVal`: `num q` is any value coercing to the finite
  number `q`; `nullv` is `None` or float NaN (to_numeric gives NaN,
  to_datetime gives NaT); `strv` is a non-numeric string (to_numeric
  coerces to NaN, but to_datetime with unit "ms" raises).
* Timestamps are rationals counting milliseconds since the epoch; the
  `datetime` values in the code carry microsecond precision, which is
  exact for every millisecond instant, so comparisons in milliseconds are
  faithful.
* The wall clock is frozen: `now` is a fixed instant in milliseconds, as
  in the spec's adapter-stub scenarios.
* The CCXT adapter is a function from the "since" cursor to a page of raw
  rows or an adapter error; symbol, timeframe and page limit are fixed
  inside it.  The `while True` pagination loop is given a fuel parameter;
  `none` as result means the fuel was exhausted (the code would still be
  looping), `some` means the loop exited and with which outcome.
* The CSV cache file is modelled at table level: `to_csv` (with pandas
  defaults, which round-trip both the ISO timestamps and the floats
  exactly) stores the table, `read_csv` returns it; the cache-hit branch
  re-sorts and re-deduplicates exactly as the code does.
-/

set_option maxHeartbeats 1000000

namespace CryptoFetch

/-- A raw field of an exchange row: a value coercing to a finite number, a
null-like value (None / NaN), or a non-numeric string. -/
inductive RVal where
  | num (q : ℚ)
  | nullv
  | strv
  deriving DecidableEq, Repr

/-- One raw CCXT OHLCV row: [timestamp ms, open, high, low, close, volume]
(src/data.py line 51).  Field names abbreviate the six columns. -/
structure RawRow where
  ts : RVal
  op : RVal
  hi : RVal
  lo : RVal
  cl : RVal
  vo : RVal
  deriving DecidableEq, Repr

/-- One normalized candle: all six fields coerced to finite numbers,
timestamp in milliseconds UTC. -/
structure Candle where
  ts : ℚ
  op : ℚ
  hi : ℚ
  lo : ℚ
  cl : ℚ
  vo : ℚ
  deriving DecidableEq, Repr

/-- Python `s[-1]` probe used to model `s.endswith(c)` for a single
character `c`: the last character of the string, if any. -/
def lastChar? (s : String) : Option Char := s.data.getLast?

/-- Python `s[:-1]`: the string without its final character. -/
def strDropLast (s : String) : String := String.mk s.data.dropLast

/-- The code points starting the 66 aligned runs of ten Unicode decimal
digits (category Nd, Numeric_Type=Decimal): each run holds the digits
0..9 of one script in order, so the digit value of a character in a run
is its offset from the run start.  These are exactly the characters that
CPython `int()` accepts as digits.  Extracted from CPython 3.11
`unicodedata` (Unicode 14). -/
def decimalRunStarts : List ℕ :=
  [48, 1632, 1776, 1984, 2406, 2534, 2662, 2790, 2918, 3046, 3174, 3302,
   3430, 3558, 3664, 3792, 3872, 4160, 4240, 6112, 6160, 6470, 6608, 6784,
   6800, 6992, 7088, 7232, 7248, 42528, 43216, 43264, 43472, 43504, 43600,
   44016, 65296, 66720, 68912, 69734, 69872, 69942, 70096, 70384, 70736,
   70864, 71248, 71360, 71472, 71904, 72016, 72784, 73040, 73120, 92768,
   92864, 93008, 120782, 120792, 120802, 120812, 120822, 123200, 123632,
   125264, 130032]

/-- The 128 code points with Numeric_Type=Digit but no decimal value
(superscripts, subscripts, circled digits, ...): CPython `str.isdigit()`
accepts them but `int()` raises ValueError on them.  Extracted from
CPython 3.11 `unicodedata` (Unicode 14). -/
def digitOnlyCodes : List ℕ :=
  [178, 179, 185, 4969, 4970, 4971, 4972, 4973, 4974, 4975, 4976, 4977,
   6618, 8304, 8308, 8309, 8310, 8311, 8312, 8313, 8320, 8321, 8322, 8323,
   8324, 8325, 8326, 8327, 8328, 8329, 9312, 9313, 9314, 9315, 9316, 9317,
   9318, 9319, 9320, 9332, 9333, 9334, 9335, 9336, 9337, 9338, 9339, 9340,
   9352, 9353, 9354, 9355, 9356, 9357, 9358, 9359, 9360, 9450, 9461, 9462,
   9463, 9464, 9465, 9466, 9467, 9468, 9469, 9471, 10102, 10103, 10104,
   10105, 10106, 10107, 10108, 10109, 10110, 10112, 10113, 10114, 10115,
   10116, 10117, 10118, 10119, 10120, 10122, 10123, 10124, 10125, 10126,
   10127, 10128, 10129, 10130, 68160, 68161, 68162, 68163, 69216, 69217,
   69218, 69219, 69220, 69221, 69222, 69223, 69224, 69714, 69715, 69716,
   69717, 69718, 69719, 69720, 69721, 69722, 127232, 127233, 127234,
   127235, 127236, 127237, 127238, 127239, 127240, 127241, 127242]

/-- The decimal digit value of a character, if it is a Unicode decimal
digit (the characters `int()` accepts). -/
def pyDecDigit? (c : Char) : Option ℕ :=
  (decimalRunStarts.find? (fun s =>
    decide (s ≤ c.toNat) && decide (c.toNat < s + 10))).map
    (fun s => c.toNat - s)

/-- CPython `str.isdigit()` on one character: Numeric_Type is Decimal or
Digit. -/
def pyIsDigit (c : Char) : Bool :=
  (pyDecDigit? c).isSome || digitOnlyCodes.contains c.toNat

/-- Python `s.isdigit()`: non-empty and every character a digit
(Numeric_Type Decimal or Digit). -/
def isDigits (s : String) : Bool := !s.data.isEmpty && s.data.all pyIsDigit

/-- Python `int(s)` restricted to the guarded call sites: `some n` when
`s` is a non-empty string of Unicode decimal digits with value `n`,
`none` when some character has no decimal value (then `int()` raises
ValueError — possible even under an `isdigit()` guard, e.g. on "²"). -/
def pyInt? (s : String) : Option ℕ :=
  if !s.data.isEmpty && s.data.all (fun c => (pyDecDigit? c).isSome) then
    some (s.data.foldl (fun a c => a * 10 + (pyDecDigit? c).getD 0) 0)
  else none

/-- src/data.py lines 18-32: near-now cutoff for a timeframe label, in
milliseconds.  `"1h"` gives 2 hours, `"1d"` one day; a label whose last
character is `h` (resp. `d`) and whose body passes `isdigit()` computes
`int(body)` — raising ValueError (`.error`) when the body contains a
digit character with no decimal value — and yields max(2, 2*N) hours
(resp. max(1, N) days); anything else gives 2 hours. -/
def _near_now_delta (timeframe : String) : Except Unit ℚ :=
  if timeframe = "1h" then .ok 7200000
  else if timeframe = "1d" then .ok 86400000
  else if lastChar? timeframe = some 'h' ∧ isDigits (strDropLast timeframe) then
    match pyInt? (strDropLast timeframe) with
    | some hours => .ok (((max 2 (hours * 2) : ℕ) : ℚ) * 3600000)
    | none => .error ()
  else if lastChar? timeframe = some 'd' ∧ isDigits (strDropLast timeframe) then
    match pyInt? (strDropLast timeframe) with
    | some days => .ok (((max 1 days : ℕ) : ℚ) * 86400000)
    | none => .error ()
  else .ok 7200000

/-- Modelled from the spec: the timeframe-policy mapping exactly as claim
C6 words it: a total, never-failing function with explicit values for
"1h" and "1d", derived cutoffs for labels `<N>h` / `<N>d` whose body is
(the digits of) a positive integer N, and 2 hours for every other
label. -/
def claimNearNowCutoff (timeframe : String) : ℚ :=
  if timeframe = "1h" then 7200000
  else if timeframe = "1d" then 86400000
  else if lastChar? timeframe = some 'h' ∧
      0 < (pyInt? (strDropLast timeframe)).getD 0 then
    max 7200000 (2 * ((pyInt? (strDropLast timeframe)).getD 0 : ℚ) * 3600000)
  else if lastChar? timeframe = some 'd' ∧
      0 < (pyInt? (strDropLast timeframe)).getD 0 then
    max 86400000 (((pyInt? (strDropLast timeframe)).getD 0 : ℚ) * 86400000)
  else 7200000

/-- Modelled from the spec: the amended timeframe-policy mapping — as the
claim, except that the `<N>h` / `<N>d` clauses fire for every label whose
body passes `isdigit()`: when the body is a string of decimal digits of
value N (including 0 and leading zeros) they yield max(2 hours, 2N hours)
/ max(1 day, N days), and when the body contains an `isdigit`-true
character with no decimal value the policy raises instead of returning a
cutoff. -/
def amendedNearNowCutoff (timeframe : String) : Except Unit ℚ :=
  if timeframe = "1h" then .ok 7200000
  else if timeframe = "1d" then .ok 86400000
  else if lastChar? timeframe = some 'h' ∧ isDigits (strDropLast timeframe) then
    match pyInt? (strDropLast timeframe) with
    | some n => .ok (max 7200000 (2 * (n : ℚ) * 3600000))
    | none => .error ()
  else if lastChar? timeframe = some 'd' ∧ isDigits (strDropLast timeframe) then
    match pyInt? (strDropLast timeframe) with
    | some n => .ok (max 86400000 ((n : ℚ) * 86400000))
    | none => .error ()
  else .ok 7200000

/-- The dropna test of src/data.py line 66 on one row, fused with the
to_datetime and to_numeric coercions: a row survives iff its timestamp and
all five numeric columns coerced to actual numbers (no NaT, no NaN). -/
def coerceRow (r : RawRow) : Option Candle :=
  match r.ts, r.op, r.hi, r.lo, r.cl, r.vo with
  | .num t, .num o, .num h, .num l, .num c, .num v => some ⟨t, o, h, l, c, v⟩
  | _, _, _, _, _, _ => none

/-- Insert a candle into a list sorted by timestamp, before any candle of
equal timestamp. -/
def insertByTs (c : Candle) : List Candle → List Candle
  | [] => [c]
  | d :: ds => if c.ts ≤ d.ts then c :: d :: ds else d :: insertByTs c ds

/-- src/data.py line 69 `sort_values("timestamp")`: sort by timestamp.
The model sort is stable; the pandas default sort is not guaranteed stable,
so only tie-order-independent facts are proved about outputs with
duplicate timestamps. -/
def sortByTs : List Candle → List Candle
  | [] => []
  | c :: cs => insertByTs c (sortByTs cs)

/-- src/data.py line 69 `drop_duplicates(subset=["timestamp"])`: keep each
row whose timestamp has not occurred earlier in the list. -/
def dropDupTsAux (seen : List ℚ) : List Candle → List Candle
  | [] => []
  | c :: cs =>
    if c.ts ∈ seen then dropDupTsAux seen cs
    else c :: dropDupTsAux (c.ts :: seen) cs

/-- Keep the first occurrence of each timestamp. -/
def dropDupTs (l : List Candle) : List Candle := dropDupTsAux [] l

/-- Whether some row's timestamp field is a non-numeric string, on which
`pd.to_datetime(..., unit="ms")` (src/data.py line 58) raises. -/
def hasStrvTs (rows : List RawRow) : Bool :=
  rows.any (fun r => decide (r.ts = RVal.strv))

/-- src/data.py lines 48-72, `_ohlcv_to_df`: build the frame, convert the
timestamp column (raising on non-numeric strings), coerce the five value
columns, drop rows with NaN/NaT, sort by timestamp, deduplicate
timestamps. -/
def _ohlcv_to_df (ohlcv : List RawRow) : Except Unit (List Candle) :=
  if hasStrvTs ohlcv then .error ()
  else .ok (dropDupTs (sortByTs (ohlcv.filterMap coerceRow)))

/-- Errors ending a fetch: an adapter (network/exchange) error, or a
Python TypeError/ValueError raised by the code itself — from
`_near_now_delta` on an isdigit-true non-decimal body, from a malformed
batch, or from the normalizer on a string timestamp. -/
inductive FetchErr where
  | adapterErr
  | typeErr
  deriving DecidableEq, Repr

/-- The exchange adapter, fixed at one symbol/timeframe/limit: maps the
"since" cursor (ms) to a page of raw rows or an error. -/
abbrev Adapter : Type := ℚ → Except FetchErr (List RawRow)

/-- The numeric timestamp of a raw row, if its first field is numeric. -/
def tsQ? (r : RawRow) : Option ℚ :=
  match r.ts with
  | .num q => some q
  | _ => none

/-- `batch[0][0]` as a number (src/data.py line 120: computed for every
batch; a non-numeric value raises). -/
def firstTsQ (batch : List RawRow) : Option ℚ := batch.head?.bind tsQ?

/-- `batch[-1][0]` as a number (src/data.py line 126). -/
def lastTsQ (batch : List RawRow) : Option ℚ := batch.getLast?.bind tsQ?

/-- src/data.py lines 112-140, the `while True` pagination loop, with fuel.
Returns (outcome, list of cursors requested).  Outcome `none`: fuel ran
out (the real loop would still be running); `some (.error e)`: a raised
error; `some (.ok rows)`: the loop broke with `all_rows = rows`.
Each iteration: request a page at `since`; stop on an empty page; extend
the accumulator; stop if `last_ms + 1 <= since` (non-advancement guard) or
if the last candle is within `nearNow` of `now` (near-now guard);
otherwise continue from `last_ms + 1`. -/
def fetchLoopT (adapter : Adapter) (now nearNow : ℚ) :
    Nat → ℚ → List RawRow → Option (Except FetchErr (List RawRow)) × List ℚ
  | 0, _, _ => (none, [])
  | fuel + 1, since, acc =>
    match adapter since with
    | .error e => (some (.error e), [since])
    | .ok [] => (some (.ok acc), [since])
    | .ok (r :: rs) =>
      match firstTsQ (r :: rs), lastTsQ (r :: rs) with
      | some _, some lastMs =>
        let acc2 := acc ++ (r :: rs)
        if lastMs + 1 ≤ since then (some (.ok acc2), [since])
        else if lastMs ≥ now - nearNow then (some (.ok acc2), [since])
        else
          let rest := fetchLoopT adapter now nearNow fuel (lastMs + 1) acc2
          (rest.1, since :: rest.2)
      | _, _ => (some (.error .typeErr), [since])

/-- src/data.py lines 105-106: the initial cursor, `now` minus
`365 * YEARS_OF_HISTORY` days with `YEARS_OF_HISTORY = 3` (config.py),
in milliseconds. -/
def startCursor (now : Int) : Int := now - 94608000000

/-- src/data.py lines 96-99, the cache-hit branch body: read the stored
table back, re-sort and re-deduplicate by timestamp. -/
def loadCache (t : List Candle) : List Candle := dropDupTs (sortByTs t)

/-- src/data.py line 146 `df.to_csv(cache_path)`: afterwards the cache
file exists and holds the table. -/
def saveCache (t : List Candle) : Option (List Candle) := some t

/-- Observable outcome of one `fetch_ohlcv_full` call: the returned table
or raised error, and the cache file contents afterwards. -/
structure FetchOut where
  result : Except FetchErr (List Candle)
  cacheAfter : Option (List Candle)
  deriving Repr

/-- src/data.py lines 142-148: after the loop, normalize the accumulated
rows (a raised normalizer error propagates and nothing is written) and, if
a cache path was supplied, write the table to it. -/
def finishFetch (hasPath : Bool) (stored : Option (List Candle))
    (rows : List RawRow) : FetchOut :=
  match _ohlcv_to_df rows with
  | .error _ => ⟨.error .typeErr, stored⟩
  | .ok df => ⟨.ok df, if hasPath then some df else stored⟩

/-- src/data.py lines 79-148, `fetch_ohlcv_full`: if a cache path was
supplied and the file exists, load it (never calling the adapter);
otherwise paginate from `startCursor now`, normalize, and cache the result
when a path was supplied.  `hasPath` models whether `cache_path` was
passed; `stored` models the cache file contents (`none` = file absent).
`fetchFresh` is the cache-miss path: resolve the near-now cutoff first
(data.py line 109 — a ValueError raised there propagates before any page
is requested and nothing is written), then run the pagination loop and
package its outcome through `finishFetch`. -/
def fetchFresh (adapter : Adapter) (timeframe : String) (now : Int)
    (fuel : Nat) (hasPath : Bool) (stored : Option (List Candle)) :
    Option FetchOut :=
  match _near_now_delta timeframe with
  | .error _ => some ⟨.error .typeErr, stored⟩
  | .ok nf =>
    match (fetchLoopT adapter (now : ℚ) nf fuel
        ((startCursor now : Int) : ℚ) []).1 with
    | none => none
    | some (.error e) => some ⟨.error e, stored⟩
    | some (.ok rows) => some (finishFetch hasPath stored rows)

def fetch_ohlcv_full (adapter : Adapter) (timeframe : String) (now : Int)
    (fuel : Nat) (hasPath : Bool) (stored : Option (List Candle)) :
    Option FetchOut :=
  match hasPath, stored with
  | true, some t => some ⟨.ok (loadCache t), some t⟩
  | true, none => fetchFresh adapter timeframe now fuel true none
  | false, st => fetchFresh adapter timeframe now fuel false st

/-- The adapter stub discipline of claim C1: starting at `since`, the
adapter serves the given finite list of non-empty pages along the cursors
the loop generates — each page's edge timestamps are numeric, its last
timestamp advances the cursor and stays strictly more than the near-now
cutoff before `now` — and then an empty page. -/
def AdapterServes (adapter : Adapter) (now nearNow : ℚ) :
    List (List RawRow) → ℚ → Prop
  | [], since => adapter since = .ok []
  | p :: ps, since =>
    adapter since = .ok p ∧ p ≠ [] ∧ (firstTsQ p).isSome ∧
      ∃ lm, lastTsQ p = some lm ∧ since < lm + 1 ∧ lm < now - nearNow ∧
        AdapterServes adapter now nearNow ps (lm + 1)

/-- The adapter stub discipline of claim C7's mid-fetch error case:
starting at `since`, the adapter serves the given non-empty pages along
the generated cursors exactly as in `AdapterServes`, and then fails with
the adapter error `e` at the next request. -/
def AdapterServesThenErr (adapter : Adapter) (now nearNow : ℚ)
    (e : FetchErr) : List (List RawRow) → ℚ → Prop
  | [], since => adapter since = .error e
  | p :: ps, since =>
    adapter since = .ok p ∧ p ≠ [] ∧ (firstTsQ p).isSome ∧
      ∃ lm, lastTsQ p = some lm ∧ since < lm + 1 ∧ lm < now - nearNow ∧
        AdapterServesThenErr adapter now nearNow e ps (lm + 1)

/-- A raw row used by the concrete witness stubs: timestamp `t`, then
open 1, high 2, low 0, close 1, volume 5. -/
def wRow (t : ℚ) : RawRow := ⟨.num t, .num 1, .num 2, .num 0, .num 1, .num 5⟩

/-- First page of the witness stub for the full-pagination scenario. -/
def wPage1 : List RawRow := [wRow 0, wRow 10]

/-- Second page of the witness stub for the full-pagination scenario. -/
def wPage2 : List RawRow := [wRow 20]

/-- Witness stub: two advancing pages far from now, then empty pages.
With `now = 94608000000` the start cursor is 0. -/
def wAdapter : Adapter := fun since =>
  if since = 0 then .ok wPage1 else if since = 11 then .ok wPage2 else .ok []

/-- Witness stub that serves one good page at the start cursor 0 and
fails with an adapter error on every later request. -/
def wErrAfterPage : Adapter := fun since =>
  if since = 0 then .ok wPage1 else .error .adapterErr

/-- Witness stub returning a page whose last timestamp lies before every
realistic cursor, so the non-advancement guard fires. -/
def wStagnantAdapter : Adapter := fun _ => .ok [wRow 1000]

/-- Witness stub returning a page whose last candle is one hour before
`now = 189216000000`, inside the 2-hour near-now cutoff of "1h". -/
def wNearNowAdapter : Adapter := fun _ => .ok [wRow 189212400000]

/-- Witness stub that always fails with an adapter error. -/
def wErrAdapter : Adapter := fun _ => .error .adapterErr

/-- Witness stub whose very first page is empty. -/
def wEmptyAdapter : Adapter := fun _ => .ok []

/-- A valid, strictly-sorted, non-empty candle table for the cache
round-trip witness. -/
def wTable : List Candle := [⟨1000, 1, 2, 0, 1, 5⟩, ⟨2000, 1, 2, 0, 1, 5⟩]

theorem insertByTs_perm (c : Candle) (l : List Candle) :
    List.Perm (insertByTs c l) (c :: l) := by
  induction l with
  | nil => simp [insertByTs]
  | cons d ds ih =>
    simp only [insertByTs]
    split
    · exact List.Perm.refl _
    · exact (ih.cons d).trans (List.Perm.swap c d ds)

theorem sortByTs_perm (l : List Candle) : List.Perm (sortByTs l) l := by
  induction l with
  | nil => simp [sortByTs]
  | cons c cs ih =>
    exact (insertByTs_perm c (sortByTs cs)).trans (ih.cons c)

theorem insertByTs_sorted (c : Candle) {l : List Candle}
    (h : l.Pairwise (fun a b => a.ts ≤ b.ts)) :
    (insertByTs c l).Pairwise (fun a b => a.ts ≤ b.ts) := by
  induction l with
  | nil => simp [insertByTs]
  | cons d ds ih =>
    rw [List.pairwise_cons] at h
    obtain ⟨hd, hds⟩ := h
    simp only [insertByTs]
    split
    next hle =>
      refine List.Pairwise.cons ?_ (List.Pairwise.cons hd hds)
      intro x hx
      rcases List.mem_cons.mp hx with rfl | hx
      · exact hle
      · exact le_trans hle (hd x hx)
    next hle =>
      refine List.Pairwise.cons ?_ (ih hds)
      intro x hx
      have hx2 := (insertByTs_perm c ds).mem_iff.mp hx
      rcases List.mem_cons.mp hx2 with rfl | hx2
      · exact le_of_not_le hle
      · exact hd x hx2

theorem sortByTs_sorted (l : List Candle) :
    (sortByTs l).Pairwise (fun a b => a.ts ≤ b.ts) := by
  induction l with
  | nil => simp [sortByTs]
  | cons c cs ih => exact insertByTs_sorted c ih

theorem sortByTs_eq_self {l : List Candle}
    (h : l.Pairwise (fun a b => a.ts ≤ b.ts)) : sortByTs l = l := by
  induction l with
  | nil => rfl
  | cons c cs ih =>
    rw [List.pairwise_cons] at h
    obtain ⟨hc, hcs⟩ := h
    simp only [sortByTs, ih hcs]
    cases cs with
    | nil => rfl
    | cons d ds => simp [insertByTs, hc d (by simp)]

theorem dropDupTsAux_sublist (l : List Candle) :
    ∀ seen, (dropDupTsAux seen l).Sublist l := by
  induction l with
  | nil => intro seen; simp [dropDupTsAux]
  | cons c cs ih =>
    intro seen
    simp only [dropDupTsAux]
    split
    · exact (ih seen).cons c
    · exact (ih (c.ts :: seen)).cons₂ c

theorem dropDupTsAux_notin_nodup (l : List Candle) : ∀ seen,
    (∀ c ∈ dropDupTsAux seen l, c.ts ∉ seen) ∧
      (dropDupTsAux seen l).Pairwise (fun a b => a.ts ≠ b.ts) := by
  induction l with
  | nil => intro seen; simp [dropDupTsAux]
  | cons c cs ih =>
    intro seen
    simp only [dropDupTsAux]
    split
    next hmem => exact ih seen
    next hmem =>
      obtain ⟨h1, h2⟩ := ih (c.ts :: seen)
      constructor
      · intro x hx
        rcases List.mem_cons.mp hx with rfl | hx
        · exact hmem
        · exact fun hxs => h1 x hx (List.mem_cons_of_mem _ hxs)
      · refine List.Pairwise.cons ?_ h2
        intro x hx
        have h3 := h1 x hx
        simp only [List.mem_cons] at h3
        push_neg at h3
        exact fun hEq => h3.1 hEq.symm

theorem dropDupTsAux_ts_mem (l : List Candle) : ∀ seen (q : ℚ),
    q ∈ l.map (fun c => c.ts) → q ∉ seen →
      q ∈ (dropDupTsAux seen l).map (fun c => c.ts) := by
  induction l with
  | nil => intro seen q hq _; simp at hq
  | cons c cs ih =>
    intro seen q hq hns
    simp only [List.map_cons, List.mem_cons] at hq
    simp only [dropDupTsAux]
    split
    next hmem =>
      rcases hq with rfl | hq
      · exact absurd hmem hns
      · exact ih seen q hq hns
    next hmem =>
      rcases hq with rfl | hq
      · simp
      · by_cases hqc : q = c.ts
        · subst hqc; simp
        · simp only [List.map_cons, List.mem_cons]
          right
          refine ih _ q hq ?_
          simp only [List.mem_cons]
          push_neg
          exact ⟨hqc, hns⟩

theorem dropDupTsAux_eq_self {l : List Candle}
    (h : l.Pairwise (fun a b => a.ts ≠ b.ts)) : ∀ seen, (∀ c ∈ l, c.ts ∉ seen) →
      dropDupTsAux seen l = l := by
  induction l with
  | nil => intro seen _; rfl
  | cons c cs ih =>
    rw [List.pairwise_cons] at h
    obtain ⟨hc, hcs⟩ := h
    intro seen hseen
    simp only [dropDupTsAux]
    rw [if_neg (hseen c (by simp))]
    congr 1
    refine ih hcs (c.ts :: seen) ?_
    intro x hx
    simp only [List.mem_cons]
    push_neg
    exact ⟨Ne.symm (hc x hx), hseen x (List.mem_cons_of_mem _ hx)⟩

theorem pairwise_lt_of_le_ne {l : List Candle}
    (hle : l.Pairwise (fun a b => a.ts ≤ b.ts))
    (hne : l.Pairwise (fun a b => a.ts ≠ b.ts)) :
    l.Pairwise (fun a b => a.ts < b.ts) := by
  induction l with
  | nil => exact List.Pairwise.nil
  | cons c cs ih =>
    rw [List.pairwise_cons] at hle hne ⊢
    exact ⟨fun x hx => lt_of_le_of_ne (hle.1 x hx) (hne.1 x hx), ih hle.2 hne.2⟩

theorem normTable_pairwise_lt (l : List Candle) :
    (dropDupTs (sortByTs l)).Pairwise (fun a b => a.ts < b.ts) := by
  have hle := sortByTs_sorted l
  have hsub := dropDupTsAux_sublist (sortByTs l) []
  have hne := (dropDupTsAux_notin_nodup (sortByTs l) []).2
  exact pairwise_lt_of_le_ne (hle.sublist hsub) hne

theorem dropDupTs_ts_mem (l : List Candle) (q : ℚ)
    (hq : q ∈ l.map (fun c => c.ts)) :
    q ∈ (dropDupTs l).map (fun c => c.ts) :=
  dropDupTsAux_ts_mem l [] q hq (by simp)

theorem dropDupTs_subset (l : List Candle) : ∀ c ∈ dropDupTs l, c ∈ l :=
  fun _ hc => (dropDupTsAux_sublist l []).subset hc

theorem fetchTrace_mono (adapter : Adapter) (now nf : ℚ) :
    ∀ (fuel : Nat) (since : ℚ) (acc : List RawRow),
      ((fetchLoopT adapter now nf fuel since acc).2).Pairwise (· < ·) ∧
        ∀ q ∈ (fetchLoopT adapter now nf fuel since acc).2, since ≤ q := by
  intro fuel
  induction fuel with
  | zero => intro since acc; simp [fetchLoopT]
  | succ k ih =>
    intro since acc
    rcases hA : adapter since with e | batch
    · simp [fetchLoopT, hA]
    · rcases batch with _ | ⟨r, rs⟩
      · simp [fetchLoopT, hA]
      · rcases hF : firstTsQ (r :: rs) with _ | f
        · simp [fetchLoopT, hA, hF]
        · rcases hL : lastTsQ (r :: rs) with _ | lm
          · simp [fetchLoopT, hA, hF, hL]
          · by_cases h1 : lm + 1 ≤ since
            · simp only [fetchLoopT, hA, hF, hL]
              rw [if_pos h1]
              simp
            · by_cases h2 : lm ≥ now - nf
              · simp only [fetchLoopT, hA, hF, hL]
                rw [if_neg h1, if_pos h2]
                simp
              · simp only [fetchLoopT, hA, hF, hL]
                rw [if_neg h1, if_neg h2]
                obtain ⟨hpw, hge⟩ := ih (lm + 1) (acc ++ (r :: rs))
                have hlt : since < lm + 1 := not_le.mp h1
                refine ⟨List.Pairwise.cons
                  (fun q hq => lt_of_lt_of_le hlt (hge q hq)) hpw, ?_⟩
                intro q hq
                rcases List.mem_cons.mp hq with rfl | hq
                · exact le_refl q
                · exact le_of_lt (lt_of_lt_of_le hlt (hge q hq))

theorem fetchLoopT_stop (adapter : Adapter) (now nf : ℚ) (fuel : Nat)
    (since : ℚ) (acc : List RawRow) (r : RawRow) (rs : List RawRow) (f lm : ℚ)
    (hA : adapter since = .ok (r :: rs)) (hF : firstTsQ (r :: rs) = some f)
    (hL : lastTsQ (r :: rs) = some lm)
    (hstop : lm + 1 ≤ since ∨ lm ≥ now - nf) (hfuel : 1 ≤ fuel) :
    fetchLoopT adapter now nf fuel since acc =
      (some (.ok (acc ++ (r :: rs))), [since]) := by
  obtain ⟨k, rfl⟩ : ∃ k, fuel = k + 1 := ⟨fuel - 1, by omega⟩
  simp only [fetchLoopT, hA, hF, hL]
  rcases hstop with h | h
  · rw [if_pos h]
  · by_cases h1 : lm + 1 ≤ since
    · rw [if_pos h1]
    · rw [if_neg h1, if_pos h]

theorem fetchLoopT_serves (adapter : Adapter) (now nf : ℚ) :
    ∀ (pages : List (List RawRow)) (since : ℚ) (acc : List RawRow) (fuel : Nat),
      AdapterServes adapter now nf pages since → pages.length < fuel →
        (fetchLoopT adapter now nf fuel since acc).1 =
          some (.ok (acc ++ pages.flatten)) := by
  intro pages
  induction pages with
  | nil =>
    intro since acc fuel hserve hfuel
    obtain ⟨k, rfl⟩ : ∃ k, fuel = k + 1 := ⟨fuel - 1, by omega⟩
    have hA : adapter since = .ok [] := hserve
    simp [fetchLoopT, hA]
  | cons p ps ih =>
    intro since acc fuel hserve hfuel
    obtain ⟨hA, hne, hFs, lm, hL, hadv, hnear, hrest⟩ := hserve
    obtain ⟨r, rs, rfl⟩ := List.exists_cons_of_ne_nil hne
    obtain ⟨f, hF⟩ := Option.isSome_iff_exists.mp hFs
    obtain ⟨k, rfl⟩ : ∃ k, fuel = k + 1 := ⟨fuel - 1, by omega⟩
    simp only [fetchLoopT, hA, hF, hL]
    rw [if_neg (not_le.mpr hadv), if_neg (not_le.mpr hnear)]
    have hk : ps.length < k := by
      simp only [List.length_cons] at hfuel; omega
    have := ih (lm + 1) (acc ++ (r :: rs)) k hrest hk
    simpa [List.append_assoc] using this

theorem fetchLoopT_serves_err (adapter : Adapter) (now nf : ℚ) (e : FetchErr) :
    ∀ (pages : List (List RawRow)) (since : ℚ) (acc : List RawRow) (fuel : Nat),
      AdapterServesThenErr adapter now nf e pages since →
      pages.length < fuel →
        (fetchLoopT adapter now nf fuel since acc).1 = some (.error e) := by
  intro pages
  induction pages with
  | nil =>
    intro since acc fuel hserve hfuel
    obtain ⟨k, rfl⟩ : ∃ k, fuel = k + 1 := ⟨fuel - 1, by omega⟩
    have hA : adapter since = .error e := hserve
    simp [fetchLoopT, hA]
  | cons p ps ih =>
    intro since acc fuel hserve hfuel
    obtain ⟨hA, hne, hFs, lm, hL, hadv, hnear, hrest⟩ := hserve
    obtain ⟨r, rs, rfl⟩ := List.exists_cons_of_ne_nil hne
    obtain ⟨f, hF⟩ := Option.isSome_iff_exists.mp hFs
    obtain ⟨k, rfl⟩ : ∃ k, fuel = k + 1 := ⟨fuel - 1, by omega⟩
    simp only [fetchLoopT, hA, hF, hL]
    rw [if_neg (not_le.mpr hadv), if_neg (not_le.mpr hnear)]
    have hk : ps.length < k := by
      simp only [List.length_cons] at hfuel; omega
    exact ih (lm + 1) (acc ++ (r :: rs)) k hrest hk

theorem fetch_ohlcv_full_of_loop (adapter : Adapter) (tf : String) (now : Int)
    (fuel : Nat) (stored : Option (List Candle)) (rows : List RawRow)
    (nf : ℚ) (hnf : _near_now_delta tf = .ok nf)
    (hloop : (fetchLoopT adapter (now : ℚ) nf fuel
        ((startCursor now : Int) : ℚ) []).1 = some (.ok rows)) :
    fetch_ohlcv_full adapter tf now fuel false stored =
      some (finishFetch false stored rows) := by
  simp only [fetch_ohlcv_full, fetchFresh, hnf, hloop]

theorem fetchFresh_error_cache_unchanged (adapter : Adapter) (tf : String)
    (now : Int) (fuel : Nat) (hasPath : Bool) (stored : Option (List Candle))
    (out : FetchOut) (e : FetchErr)
    (hout : fetchFresh adapter tf now fuel hasPath stored = some out)
    (herr : out.result = .error e) : out.cacheAfter = stored := by
  rcases hnf : _near_now_delta tf with u | nf
  · simp only [fetchFresh, hnf] at hout
    have h2 := Option.some.inj hout
    rw [← h2]
  · rcases hloop : (fetchLoopT adapter (now : ℚ) nf fuel
        ((startCursor now : Int) : ℚ) []).1 with _ | e2 | rows
    · simp only [fetchFresh, hnf, hloop] at hout
      exact absurd hout (by simp)
    · simp only [fetchFresh, hnf, hloop] at hout
      have h2 := Option.some.inj hout
      rw [← h2]
    · simp only [fetchFresh, hnf, hloop] at hout
      have h2 := Option.some.inj hout
      rcases hdf : _ohlcv_to_df rows with u | df
      · rw [finishFetch, hdf] at h2
        rw [← h2]
      · rw [finishFetch, hdf] at h2
        rw [← h2] at herr
        exact absurd herr (by simp)

theorem fetch_error_cache_unchanged (adapter : Adapter) (tf : String)
    (now : Int) (fuel : Nat) (hasPath : Bool) (stored : Option (List Candle))
    (out : FetchOut) (e : FetchErr)
    (hout : fetch_ohlcv_full adapter tf now fuel hasPath stored = some out)
    (herr : out.result = .error e) : out.cacheAfter = stored := by
  cases hasPath <;> cases stored
  · rw [fetch_ohlcv_full] at hout
    exact fetchFresh_error_cache_unchanged adapter tf now fuel false none
      out e hout herr
  case false.some t =>
    rw [fetch_ohlcv_full] at hout
    exact fetchFresh_error_cache_unchanged adapter tf now fuel false (some t)
      out e hout herr
  case true.none =>
    rw [fetch_ohlcv_full] at hout
    exact fetchFresh_error_cache_unchanged adapter tf now fuel true none
      out e hout herr
  case true.some t =>
    rw [fetch_ohlcv_full] at hout
    have h2 := Option.some.inj hout
    rw [← h2] at herr
    exact absurd herr (by simp)

/-- Claim C6 counterexample, two independent refutations.  The label
"0d" is not of the form `<N>d` with N a positive integer, so the claim's
mapping (`claimNearNowCutoff`, its catch-all giving 2 hours) applies its
fallback, while `_near_now_delta` takes the digit-suffix rule and returns
max(1, 0) days = 1 day.  And the claim's "never failing on any input" is
false: on "²d" the body "²" passes `isdigit()` (Numeric_Type=Digit) but
has no decimal value, so `int()` — hence `_near_now_delta` — raises. -/
theorem near_now_delta_claim_counterexample :
    _near_now_delta "0d" = .ok 86400000 ∧
      claimNearNowCutoff "0d" = 7200000 ∧ (86400000 : ℚ) ≠ 7200000 ∧
      _near_now_delta "²d" = .error () := by
  refine ⟨?_, ?_, by norm_num, ?_⟩
  · have h1 : ¬("0d" = "1h") := by decide
    have h2 : ¬("0d" = "1d") := by decide
    have h3 : ¬(lastChar? "0d" = some 'h' ∧ isDigits (strDropLast "0d")) := by
      decide
    have h4 : lastChar? "0d" = some 'd' ∧ isDigits (strDropLast "0d") := by
      decide
    have h5 : pyInt? (strDropLast "0d") = some 0 := by decide
    unfold _near_now_delta
    rw [if_neg h1, if_neg h2, if_neg h3, if_pos h4, h5]
    norm_num
  · have h1 : ¬("0d" = "1h") := by decide
    have h2 : ¬("0d" = "1d") := by decide
    have h3 : ¬(lastChar? "0d" = some 'h' ∧
        0 < (pyInt? (strDropLast "0d")).getD 0) := by decide
    have h4 : ¬(lastChar? "0d" = some 'd' ∧
        0 < (pyInt? (strDropLast "0d")).getD 0) := by decide
    unfold claimNearNowCutoff
    rw [if_neg h1, if_neg h2, if_neg h3, if_neg h4]
  · have h1 : ¬("²d" = "1h") := by decide
    have h2 : ¬("²d" = "1d") := by decide
    have h3 : ¬(lastChar? "²d" = some 'h' ∧ isDigits (strDropLast "²d")) := by
      decide
    have h4 : lastChar? "²d" = some 'd' ∧ isDigits (strDropLast "²d") := by
      decide
    have h5 : pyInt? (strDropLast "²d") = none := by decide
    unfold _near_now_delta
    rw [if_neg h1, if_neg h2, if_neg h3, if_pos h4, h5]

/-- Claim C6 (amended): `_near_now_delta` is deterministic and agrees
everywhere with the spec mapping amended in two ways forced by the
counterexample: the `<N>h` / `<N>d` clauses fire for every label whose
body passes `isdigit()` — when the body is a decimal-digit string of
value N (including N = 0, so "0d" gives 1 day) they yield max(2 hours,
2N hours) / max(1 day, N days) — and when the body contains an
isdigit-true character with no decimal value (such as "²") the policy
raises ValueError instead of returning, so the function is not total on
such labels; every other label gives the 2-hour fallback. -/
theorem near_now_delta_matches_amended_spec :
    ∀ tf : String, _near_now_delta tf = amendedNearNowCutoff tf := by
  intro tf
  unfold _near_now_delta amendedNearNowCutoff
  split_ifs with h1 h2 h3 h4
  · rfl
  · rfl
  · rcases hp : pyInt? (strDropLast tf) with _ | n
    · simp [hp]
    · simp only [hp]
      rw [Except.ok.injEq, Nat.cast_max]
      rw [max_mul_of_nonneg _ _ (by norm_num : (0 : ℚ) ≤ 3600000)]
      push_cast
      ring_nf
  · rcases hp : pyInt? (strDropLast tf) with _ | n
    · simp [hp]
    · simp only [hp]
      rw [Except.ok.injEq, Nat.cast_max]
      rw [max_mul_of_nonneg _ _ (by norm_num : (0 : ℚ) ≤ 86400000)]
      push_cast
      ring_nf
  · rfl

/-- Claim C4 counterexample: on an input whose first row has a
non-numeric string in the timestamp field, `pd.to_datetime(..., unit="ms")`
raises, so the normalizer returns an error instead of dropping that row —
the second, fully valid row is not preserved in any output. -/
theorem normalize_strv_ts_counterexample :
    _ohlcv_to_df [⟨RVal.strv, RVal.num 1, RVal.num 2, RVal.num 0,
        RVal.num 1, RVal.num 5⟩,
      ⟨RVal.num 1000, RVal.num 1, RVal.num 2, RVal.num 0,
        RVal.num 1, RVal.num 5⟩] = .error () ∧
      coerceRow ⟨RVal.num 1000, RVal.num 1, RVal.num 2, RVal.num 0,
        RVal.num 1, RVal.num 5⟩ = some ⟨1000, 1, 2, 0, 1, 5⟩ :=
  ⟨rfl, rfl⟩

/-- Claim C4 (amended): for every input list of raw 6-field rows none of
whose timestamp fields is a non-numeric string, `_ohlcv_to_df` succeeds
and returns a table whose timestamps are strictly increasing by position
(hence duplicate-free); every output row arises from a valid input row by
numeric coercion (so all its fields are finite numbers, and rows with a
non-numeric or missing field contribute nothing); and every valid input
row's timestamp is present in the output (valid rows are preserved up to
the timestamp deduplication the claim itself states). -/
theorem normalize_amended (rows : List RawRow)
    (hts : ∀ r ∈ rows, r.ts ≠ RVal.strv) :
    _ohlcv_to_df rows =
        .ok (dropDupTs (sortByTs (rows.filterMap coerceRow))) ∧
      (dropDupTs (sortByTs (rows.filterMap coerceRow))).Pairwise
        (fun a b => a.ts < b.ts) ∧
      (∀ cd ∈ dropDupTs (sortByTs (rows.filterMap coerceRow)),
        ∃ r ∈ rows, coerceRow r = some cd) ∧
      (∀ r ∈ rows, ∀ cd, coerceRow r = some cd →
        ∃ e ∈ dropDupTs (sortByTs (rows.filterMap coerceRow)),
          e.ts = cd.ts) := by
  have hno : hasStrvTs rows = false := by
    rw [hasStrvTs, List.any_eq_false]
    intro r hr
    simpa using hts r hr
  refine ⟨by rw [_ohlcv_to_df, hno]; simp, normTable_pairwise_lt _, ?_, ?_⟩
  · intro cd hcd
    have h1 := dropDupTs_subset _ cd hcd
    have h2 := (sortByTs_perm _).subset h1
    exact List.mem_filterMap.mp h2
  · intro r hr cd hcd
    have h1 : cd ∈ rows.filterMap coerceRow :=
      List.mem_filterMap.mpr ⟨r, hr, hcd⟩
    have h2 : cd ∈ sortByTs (rows.filterMap coerceRow) :=
      ((sortByTs_perm _).mem_iff).mpr h1
    have h3 := List.mem_map_of_mem (fun c => c.ts) h2
    have h4 := dropDupTs_ts_mem _ _ h3
    obtain ⟨e, he, hets⟩ := List.mem_map.mp h4
    exact ⟨e, he, hets⟩

theorem coerceRow_vo {r : RawRow} {cd : Candle}
    (h : coerceRow r = some cd) : r.vo = RVal.num cd.vo := by
  rw [coerceRow] at h
  split at h
  · rename_i t o hi lo cl v heq1 heq2 heq3 heq4 heq5 heq6
    rw [Option.some.injEq] at h
    rw [← h]
    exact heq6
  · exact absurd h (by simp)

/-- Claim C9 counterexample: the normalizer does not enforce the Candle
invariant that volume is non-negative — a raw row with volume −5 passes
through `_ohlcv_to_df` unchanged, yielding an output row with negative
volume. -/
theorem normalize_negative_volume_counterexample :
    _ohlcv_to_df [⟨RVal.num 1000, RVal.num 1, RVal.num 2, RVal.num 0,
        RVal.num 1, RVal.num (-5)⟩] = .ok [⟨1000, 1, 2, 0, 1, -5⟩] ∧
      ((⟨1000, 1, 2, 0, 1, -5⟩ : Candle).vo < 0) :=
  ⟨rfl, by norm_num⟩

/-- Claim C9 (amended): the normalizer guarantees every output volume is
a finite number, and it preserves non-negativity rather than enforcing
it: whenever every numeric volume field of the input is non-negative,
every row of the returned table has non-negative volume. -/
theorem normalize_volume_nonneg_amended (rows : List RawRow)
    (hv : ∀ r ∈ rows, ∀ q : ℚ, r.vo = RVal.num q → 0 ≤ q) :
    ∀ out, _ohlcv_to_df rows = .ok out → ∀ cd ∈ out, 0 ≤ cd.vo := by
  intro out hout cd hcd
  rw [_ohlcv_to_df] at hout
  split at hout
  · exact absurd hout (by simp)
  · rw [Except.ok.injEq] at hout
    rw [← hout] at hcd
    have h1 := dropDupTs_subset _ cd hcd
    have h2 := (sortByTs_perm _).subset h1
    obtain ⟨r, hr, hcr⟩ := List.mem_filterMap.mp h2
    exact hv r hr cd.vo (coerceRow_vo hcr)

/-- Claim C1: for every timeframe whose near-now cutoff resolves (no
ValueError) and every adapter stub that, from the start cursor on, serves
a finite sequence of non-empty pages whose last timestamps strictly
advance the cursor and stay more than that cutoff before now, followed by
an empty page, `fetch_ohlcv_full` with no cache hit terminates (for any
fuel beyond the page count) and returns exactly the normalization of the
concatenation of the non-empty pages in fetch order (`finishFetch`
applies `_ohlcv_to_df` to `pages.flatten`). -/
theorem fetch_full_returns_normalized_concat (adapter : Adapter)
    (tf : String) (now : Int) (nf : ℚ)
    (hnf : _near_now_delta tf = .ok nf) (pages : List (List RawRow))
    (hserve : AdapterServes adapter (now : ℚ) nf pages
      ((startCursor now : Int) : ℚ))
    (fuel : Nat) (hfuel : pages.length < fuel) :
    fetch_ohlcv_full adapter tf now fuel false none =
      some (finishFetch false none pages.flatten) := by
  refine fetch_ohlcv_full_of_loop adapter tf now fuel none pages.flatten
    nf hnf ?_
  simpa using fetchLoopT_serves adapter (now : ℚ) nf pages
    ((startCursor now : Int) : ℚ) [] fuel hserve hfuel

/-- Witness for C1: the two-page stub `wAdapter` with `now = 94608000000`
(start cursor 0) and fuel 3 returns the normalization of the two pages
concatenated. -/
theorem fetch_full_returns_normalized_concat_witness :
    fetch_ohlcv_full wAdapter "1h" 94608000000 3 false none =
      some (finishFetch false none ([wPage1, wPage2].flatten)) := by
  refine fetch_full_returns_normalized_concat wAdapter "1h" 94608000000
    7200000 rfl [wPage1, wPage2] ?_ 3 (by norm_num)
  have hstart : ((startCursor 94608000000 : Int) : ℚ) = 0 := by
    norm_num [startCursor]
  rw [hstart]
  refine ⟨rfl, by simp [wPage1], rfl, 10, rfl, by norm_num, by push_cast; norm_num, ?_⟩
  rw [show (10 : ℚ) + 1 = 11 from by norm_num]
  refine ⟨rfl, by simp [wPage2], rfl, 20, rfl, by norm_num, by push_cast; norm_num, ?_⟩
  rw [show (20 : ℚ) + 1 = 21 from by norm_num]
  rfl

/-- Claim C2: for any timeframe whose cutoff resolves, if the adapter
returns at the start cursor a non-empty page whose final timestamp yields
nextCursor = last + 1 ≤ cursor, the loop terminates immediately after
consuming that page: the request trace is the singleton start cursor (no
further page is requested, for every fuel allowance), and
`fetch_ohlcv_full` returns on exactly that page. -/
theorem fetch_full_nonadvance_guard (adapter : Adapter) (tf : String)
    (now : Int) (nf : ℚ) (hnf : _near_now_delta tf = .ok nf)
    (r : RawRow) (rs : List RawRow) (f lm : ℚ)
    (hA : adapter ((startCursor now : Int) : ℚ) = .ok (r :: rs))
    (hF : firstTsQ (r :: rs) = some f) (hL : lastTsQ (r :: rs) = some lm)
    (hstag : lm + 1 ≤ ((startCursor now : Int) : ℚ))
    (fuel : Nat) (hfuel : 1 ≤ fuel) :
    fetchLoopT adapter (now : ℚ) nf fuel
        ((startCursor now : Int) : ℚ) [] =
        (some (.ok (r :: rs)), [((startCursor now : Int) : ℚ)]) ∧
      fetch_ohlcv_full adapter tf now fuel false none =
        some (finishFetch false none (r :: rs)) := by
  have hstop := fetchLoopT_stop adapter (now : ℚ) nf fuel
    ((startCursor now : Int) : ℚ) [] r rs f lm hA hF hL (Or.inl hstag) hfuel
  refine ⟨by simpa using hstop, ?_⟩
  refine fetch_ohlcv_full_of_loop adapter tf now fuel none (r :: rs) nf hnf ?_
  rw [hstop]
  simp

/-- Witness for C2: with `now = 189216000000` the start cursor is
94608000000, and `wStagnantAdapter` serves a page ending at 1000, so
nextCursor 1001 does not advance; the fetch stops after one request. -/
theorem fetch_full_nonadvance_guard_witness :
    fetchLoopT wStagnantAdapter ((189216000000 : Int) : ℚ)
        7200000 5 ((startCursor 189216000000 : Int) : ℚ) [] =
        (some (.ok [wRow 1000]), [((startCursor 189216000000 : Int) : ℚ)]) ∧
      fetch_ohlcv_full wStagnantAdapter "1h" 189216000000 5 false none =
        some (finishFetch false none [wRow 1000]) := by
  refine fetch_full_nonadvance_guard wStagnantAdapter "1h" 189216000000
    7200000 rfl (wRow 1000) [] 1000 1000 rfl rfl rfl ?_ 5 (by norm_num)
  norm_num [startCursor]

/-- Claim C3: for any timeframe whose cutoff resolves to nf, if the
adapter returns at the start cursor a non-empty page whose final candle
timestamp is at or after now minus nf, the loop stops after consuming
that page — one request only — even though the page was non-empty and the
cursor advanced. -/
theorem fetch_full_near_now_guard (adapter : Adapter) (tf : String)
    (now : Int) (nf : ℚ) (hnf : _near_now_delta tf = .ok nf)
    (r : RawRow) (rs : List RawRow) (f lm : ℚ)
    (hA : adapter ((startCursor now : Int) : ℚ) = .ok (r :: rs))
    (hF : firstTsQ (r :: rs) = some f) (hL : lastTsQ (r :: rs) = some lm)
    (hadv : ((startCursor now : Int) : ℚ) < lm + 1)
    (hnear : lm ≥ (now : ℚ) - nf)
    (fuel : Nat) (hfuel : 1 ≤ fuel) :
    fetchLoopT adapter (now : ℚ) nf fuel
        ((startCursor now : Int) : ℚ) [] =
        (some (.ok (r :: rs)), [((startCursor now : Int) : ℚ)]) ∧
      fetch_ohlcv_full adapter tf now fuel false none =
        some (finishFetch false none (r :: rs)) := by
  have hstop := fetchLoopT_stop adapter (now : ℚ) nf fuel
    ((startCursor now : Int) : ℚ) [] r rs f lm hA hF hL (Or.inr hnear) hfuel
  refine ⟨by simpa using hstop, ?_⟩
  refine fetch_ohlcv_full_of_loop adapter tf now fuel none (r :: rs) nf hnf ?_
  rw [hstop]
  simp

/-- Witness for C3: with `now = 189216000000` and timeframe "1h" (cutoff
2 hours), `wNearNowAdapter` serves a page ending one hour before now;
pagination stops after that single page. -/
theorem fetch_full_near_now_guard_witness :
    fetchLoopT wNearNowAdapter ((189216000000 : Int) : ℚ)
        7200000 7 ((startCursor 189216000000 : Int) : ℚ) [] =
        (some (.ok [wRow 189212400000]),
          [((startCursor 189216000000 : Int) : ℚ)]) ∧
      fetch_ohlcv_full wNearNowAdapter "1h" 189216000000 7 false none =
        some (finishFetch false none [wRow 189212400000]) := by
  refine fetch_full_near_now_guard wNearNowAdapter "1h" 189216000000
    7200000 rfl (wRow 189212400000) [] 189212400000 189212400000 rfl rfl rfl
    ?_ ?_ 7 (by norm_num)
  · norm_num [startCursor]
  · push_cast
    norm_num

/-- Claim C7: an adapter error during any single page request aborts the
entire fetch.  (1) Whenever `fetch_ohlcv_full` returns an error outcome,
the cache contents afterwards are exactly what they were before — nothing
is written — and the error outcome carries no table.  (2) At any request
point of the loop — any cursor, any rows already accumulated — an adapter
error ends the loop at once with that error: the accumulated rows are
discarded (the outcome carries none of them) and no further request is
issued (the trace is just that cursor).  (3) For a stub serving any
number of good pages and then failing, the entire fetch surfaces the
adapter error with the cache unchanged, so the pages accumulated before
the failure yield no observable partial output.  (4) The request trace is
strictly increasing, so no request — in particular not the failing one —
is ever issued twice (no automatic retry). -/
theorem fetch_error_aborts :
    (∀ (adapter : Adapter) (tf : String) (now : Int) (fuel : Nat)
      (hasPath : Bool) (stored : Option (List Candle)) (out : FetchOut)
      (e : FetchErr),
        fetch_ohlcv_full adapter tf now fuel hasPath stored = some out →
        out.result = .error e → out.cacheAfter = stored) ∧
    (∀ (adapter : Adapter) (now nf : ℚ) (fuel : Nat) (since : ℚ)
      (acc : List RawRow) (e : FetchErr),
        adapter since = .error e → 1 ≤ fuel →
        fetchLoopT adapter now nf fuel since acc =
          (some (.error e), [since])) ∧
    (∀ (adapter : Adapter) (tf : String) (now : Int) (nf : ℚ)
      (e : FetchErr) (pages : List (List RawRow))
      (stored : Option (List Candle)) (fuel : Nat),
        _near_now_delta tf = .ok nf →
        AdapterServesThenErr adapter (now : ℚ) nf e pages
          ((startCursor now : Int) : ℚ) →
        pages.length < fuel →
        fetch_ohlcv_full adapter tf now fuel false stored =
          some ⟨.error e, stored⟩) ∧
    (∀ (adapter : Adapter) (now nf : ℚ) (fuel : Nat) (since : ℚ)
      (acc : List RawRow),
        ((fetchLoopT adapter now nf fuel since acc).2).Pairwise (· < ·)) := by
  refine ⟨fetch_error_cache_unchanged, ?_, ?_, ?_⟩
  · intro adapter now nf fuel since acc e hA hfuel
    obtain ⟨k, rfl⟩ : ∃ k, fuel = k + 1 := ⟨fuel - 1, by omega⟩
    simp [fetchLoopT, hA]
  · intro adapter tf now nf e pages stored fuel hnf hserve hfuel
    have hloop := fetchLoopT_serves_err adapter (now : ℚ) nf e pages
      ((startCursor now : Int) : ℚ) [] fuel hserve hfuel
    simp only [fetch_ohlcv_full, fetchFresh, hnf, hloop]
  · intro adapter now nf fuel since acc
    exact (fetchTrace_mono adapter now nf fuel since acc).1

/-- Witness for C7: `wErrAfterPage` serves one good page at the start
cursor and then fails; the whole fetch surfaces the adapter error with
nothing cached (the accumulated page is discarded), the loop at the
failing cursor with the page already accumulated returns the bare error
after that one request, and the request trace is strictly increasing. -/
theorem fetch_error_aborts_witness :
    fetch_ohlcv_full wErrAfterPage "1h" 94608000000 3 false none =
        some ⟨.error .adapterErr, none⟩ ∧
      fetchLoopT wErrAfterPage 94608000000 7200000 3 11 wPage1 =
        (some (.error .adapterErr), [11]) ∧
      ((fetchLoopT wErrAfterPage 94608000000 7200000 3 0 []).2).Pairwise
        (· < ·) := by
  refine ⟨?_, ?_,
    fetch_error_aborts.2.2.2 wErrAfterPage 94608000000 7200000 3 0 []⟩
  · refine fetch_error_aborts.2.2.1 wErrAfterPage "1h" 94608000000 7200000
      .adapterErr [wPage1] none 3 rfl ?_ (by norm_num)
    have hstart : ((startCursor 94608000000 : Int) : ℚ) = 0 := by
      norm_num [startCursor]
    rw [hstart]
    refine ⟨rfl, by simp [wPage1], rfl, 10, rfl, by norm_num,
      by push_cast; norm_num, ?_⟩
    rw [show (10 : ℚ) + 1 = 11 from by norm_num]
    rfl
  · exact fetch_error_aborts.2.1 wErrAfterPage 94608000000 7200000 3 11
      wPage1 .adapterErr rfl (by norm_num)

/-- Claim C8: cache round trip.  For every valid (strictly
timestamp-sorted) non-empty table T, loading after saving returns T
exactly — every timestamp and numeric field preserved — and a
`fetch_ohlcv_full` call finding T saved at the cache path takes the
cache-hit branch and returns T with the cache unchanged. -/
theorem cache_round_trip (T : List Candle) (hne : T ≠ [])
    (hsorted : T.Pairwise (fun a b => a.ts < b.ts)) :
    loadCache T = T ∧
      ∀ (adapter : Adapter) (tf : String) (now : Int) (fuel : Nat),
        fetch_ohlcv_full adapter tf now fuel true (saveCache T) =
          some ⟨.ok T, saveCache T⟩ := by
  have hload : loadCache T = T := by
    have hle : T.Pairwise (fun a b => a.ts ≤ b.ts) :=
      hsorted.imp (fun h => le_of_lt h)
    have hne2 : T.Pairwise (fun a b => a.ts ≠ b.ts) :=
      hsorted.imp (fun h => ne_of_lt h)
    rw [loadCache, dropDupTs, sortByTs_eq_self hle,
      dropDupTsAux_eq_self hne2 [] (by simp)]
  refine ⟨hload, fun adapter tf now fuel => ?_⟩
  rw [saveCache, fetch_ohlcv_full, hload]

/-- Witness for C8 at the concrete sorted two-row table `wTable`. -/
theorem cache_round_trip_witness :
    loadCache wTable = wTable ∧
      fetch_ohlcv_full wEmptyAdapter "1h" 94608000000 3 true
          (saveCache wTable) = some ⟨.ok wTable, saveCache wTable⟩ := by
  have h := cache_round_trip wTable (by simp [wTable]) ?_
  · exact ⟨h.1, h.2 wEmptyAdapter "1h" 94608000000 3⟩
  · rw [wTable]
    refine List.Pairwise.cons ?_ (List.Pairwise.cons (by simp) List.Pairwise.nil)
    intro x hx
    rw [List.mem_singleton] at hx
    rw [hx]
    norm_num

/-- Claim C10: for any timeframe whose cutoff resolves, if the adapter's
very first page is empty and a cache path is supplied with no file yet
present, `fetch_ohlcv_full` persists an empty table at the path and
returns an empty table; and every subsequent call with that path — for
any adapter, timeframe, clock and fuel — takes the cache-hit branch and
returns that empty table without consulting its adapter, so the empty
result persists until the cache file is removed. -/
theorem empty_first_page_cached (adapter : Adapter) (tf : String)
    (now : Int) (nf : ℚ) (hnf : _near_now_delta tf = .ok nf)
    (fuel : Nat) (hfuel : 1 ≤ fuel)
    (hA : adapter ((startCursor now : Int) : ℚ) = .ok []) :
    fetch_ohlcv_full adapter tf now fuel true none =
        some ⟨.ok [], some []⟩ ∧
      ∀ (adapter2 : Adapter) (tf2 : String) (now2 : Int) (fuel2 : Nat),
        fetch_ohlcv_full adapter2 tf2 now2 fuel2 true (some []) =
          some ⟨.ok [], some []⟩ := by
  constructor
  · obtain ⟨k, rfl⟩ : ∃ k, fuel = k + 1 := ⟨fuel - 1, by omega⟩
    have hloop : (fetchLoopT adapter (now : ℚ) nf (k + 1)
        ((startCursor now : Int) : ℚ) []).1 = some (.ok []) := by
      simp [fetchLoopT, hA]
    simp only [fetch_ohlcv_full, fetchFresh, hnf, hloop]
    rfl
  · intro adapter2 tf2 now2 fuel2
    rw [fetch_ohlcv_full]
    rfl

/-- Witness for C10 with the empty-page stub `wEmptyAdapter`. -/
theorem empty_first_page_cached_witness :
    fetch_ohlcv_full wEmptyAdapter "1h" 94608000000 1 true none =
        some ⟨.ok [], some []⟩ ∧
      fetch_ohlcv_full wEmptyAdapter "1d" 0 0 true (some []) =
        some ⟨.ok [], some []⟩ := by
  have h := empty_first_page_cached wEmptyAdapter "1h" 94608000000 7200000
    rfl 1 (by norm_num) rfl
  exact ⟨h.1, h.2 wEmptyAdapter "1d" 0 0⟩

/-- Witness for C4 (amended) at a concrete mixed input: one valid row,
one row with a missing close field, one null timestamp. -/
theorem normalize_amended_witness :
    _ohlcv_to_df [wRow 0, ⟨RVal.num 5, RVal.num 1, RVal.num 2, RVal.num 0,
          RVal.nullv, RVal.num 5⟩, ⟨RVal.nullv, RVal.num 1, RVal.num 2,
          RVal.num 0, RVal.num 1, RVal.num 5⟩] =
        .ok (dropDupTs (sortByTs ([wRow 0, ⟨RVal.num 5, RVal.num 1,
          RVal.num 2, RVal.num 0, RVal.nullv, RVal.num 5⟩, ⟨RVal.nullv,
          RVal.num 1, RVal.num 2, RVal.num 0, RVal.num 1,
          RVal.num 5⟩].filterMap coerceRow))) ∧
      (dropDupTs (sortByTs ([wRow 0, ⟨RVal.num 5, RVal.num 1, RVal.num 2,
          RVal.num 0, RVal.nullv, RVal.num 5⟩, ⟨RVal.nullv, RVal.num 1,
          RVal.num 2, RVal.num 0, RVal.num 1,
          RVal.num 5⟩].filterMap coerceRow))).Pairwise
        (fun a b => a.ts < b.ts) ∧
      (∀ cd ∈ dropDupTs (sortByTs ([wRow 0, ⟨RVal.num 5, RVal.num 1,
          RVal.num 2, RVal.num 0, RVal.nullv, RVal.num 5⟩, ⟨RVal.nullv,
          RVal.num 1, RVal.num 2, RVal.num 0, RVal.num 1,
          RVal.num 5⟩].filterMap coerceRow)),
        ∃ r ∈ [wRow 0, ⟨RVal.num 5, RVal.num 1, RVal.num 2, RVal.num 0,
          RVal.nullv, RVal.num 5⟩, ⟨RVal.nullv, RVal.num 1, RVal.num 2,
          RVal.num 0, RVal.num 1, RVal.num 5⟩], coerceRow r = some cd) ∧
      (∀ r ∈ [wRow 0, ⟨RVal.num 5, RVal.num 1, RVal.num 2, RVal.num 0,
          RVal.nullv, RVal.num 5⟩, ⟨RVal.nullv, RVal.num 1, RVal.num 2,
          RVal.num 0, RVal.num 1, RVal.num 5⟩], ∀ cd,
        coerceRow r = some cd →
        ∃ e ∈ dropDupTs (sortByTs ([wRow 0, ⟨RVal.num 5, RVal.num 1,
          RVal.num 2, RVal.num 0, RVal.nullv, RVal.num 5⟩, ⟨RVal.nullv,
          RVal.num 1, RVal.num 2, RVal.num 0, RVal.num 1,
          RVal.num 5⟩].filterMap coerceRow)), e.ts = cd.ts) := by
  apply normalize_amended
  intro r hr
  simp only [wRow, List.mem_cons, List.not_mem_nil, or_false] at hr
  rcases hr with rfl | rfl | rfl <;> simp

/-- Witness for C9 (amended): the single surviving row of a concrete
input with non-negative volumes has non-negative volume. -/
theorem normalize_volume_nonneg_amended_witness :
    (0 : ℚ) ≤ (⟨1000, 1, 2, 0, 1, 5⟩ : Candle).vo := by
  apply normalize_volume_nonneg_amended
    [⟨RVal.num 1000, RVal.num 1, RVal.num 2, RVal.num 0, RVal.num 1,
      RVal.num 5⟩] ?_ [⟨1000, 1, 2, 0, 1, 5⟩] rfl ⟨1000, 1, 2, 0, 1, 5⟩
    (by simp)
  intro r hr q hq
  rw [List.mem_singleton] at hr
  rw [hr] at hq
  have h2 : RVal.num 5 = RVal.num q := hq
  rw [RVal.num.injEq] at h2
  rw [← h2]
  norm_num

end CryptoFetch
